import Mathlib

/-!
Verification development for the sentry-module repository: a shallow
embedding of its configuration-resolution logic (utility predicates,
the lodash-style accretive merge, the option resolvers for client and
server, and the webpack / server-initialization lifecycle hooks),
together with theorems settling the specification claims.
-/

set_option maxHeartbeats 1600000

namespace SentryModule

/-- A JavaScript-like value, as manipulated by the configuration code:
`undefined` is JavaScript `undefined`, `null` is `null`, `inst name args` models
an instantiated class object (e.g. `new Integrations[name](opt)`, which is
not a plain object for merge purposes; `args` is the options object the
constructor received, or `undefined` when it was called with no arguments).
Objects are ordered association lists of fields, as JavaScript objects
are ordered. -/
inductive JValue where
  | undefined : JValue
  | null : JValue
  | bool (b : Bool) : JValue
  | num (n : Int) : JValue
  | str (s : String) : JValue
  | arr (xs : List JValue) : JValue
  | obj (fields : List (String × JValue)) : JValue
  | inst (name : String) (args : JValue) : JValue
  deriving Repr

abbrev Field := String × JValue

mutual

/-- Boolean structural equality on values (used to derive decidable
equality, which Lean cannot auto-derive for this nested inductive). -/
def jbeq : JValue → JValue → Bool
  | .undefined, .undefined => true
  | .null, .null => true
  | .bool a, .bool b => a == b
  | .num a, .num b => a == b
  | .str a, .str b => a == b
  | .arr xs, .arr ys => jbeqList xs ys
  | .obj fs, .obj gs => jbeqFields fs gs
  | .inst n a, .inst m b => n == m && jbeq a b
  | _, _ => false
termination_by v _ => sizeOf v

/-- Boolean equality on value lists. -/
def jbeqList : List JValue → List JValue → Bool
  | [], [] => true
  | x :: xs, y :: ys => jbeq x y && jbeqList xs ys
  | _, _ => false
termination_by xs _ => sizeOf xs

/-- Boolean equality on field lists. -/
def jbeqFields : List Field → List Field → Bool
  | [], [] => true
  | (k, v) :: fs, (l, w) :: gs => k == l && jbeq v w && jbeqFields fs gs
  | _, _ => false
termination_by fs _ => sizeOf fs

end

mutual

theorem jbeq_iff : ∀ (a b : JValue), jbeq a b = true ↔ a = b
  | .undefined, b => by cases b <;> simp [jbeq]
  | .null, b => by cases b <;> simp [jbeq]
  | .bool a, b => by cases b <;> simp [jbeq]
  | .num a, b => by cases b <;> simp [jbeq]
  | .str a, b => by cases b <;> simp [jbeq]
  | .arr xs, b => by
    cases b <;> simp [jbeq, jbeqList_iff xs]
  | .obj fs, b => by
    cases b <;> simp [jbeq, jbeqFields_iff fs]
  | .inst n a, b => by
    cases b <;> simp [jbeq, jbeq_iff a]
termination_by a _ => sizeOf a

theorem jbeqList_iff : ∀ (xs ys : List JValue), jbeqList xs ys = true ↔ xs = ys
  | [], ys => by cases ys <;> simp [jbeqList]
  | x :: xs, ys => by
    cases ys with
    | nil => simp [jbeqList]
    | cons y ys => simp [jbeqList, jbeq_iff x y, jbeqList_iff xs ys]
termination_by xs _ => sizeOf xs

theorem jbeqFields_iff : ∀ (fs gs : List Field), jbeqFields fs gs = true ↔ fs = gs
  | [], gs => by cases gs <;> simp [jbeqFields]
  | (k, v) :: fs, gs => by
    cases gs with
    | nil => simp [jbeqFields]
    | cons g gs =>
      obtain ⟨l, w⟩ := g
      simp [jbeqFields, jbeq_iff v w, jbeqFields_iff fs gs]
termination_by fs _ => sizeOf fs

end

instance : DecidableEq JValue :=
  fun a b => decidable_of_iff (jbeq a b = true) (jbeq_iff a b)

/-- JavaScript truthiness of a value (`Boolean(v)`). -/
def truthy : JValue → Bool
  | .undefined => false
  | .null => false
  | .bool b => b
  | .num n => !(n == 0)
  | .str s => !(s == "")
  | .arr _ => true
  | .obj _ => true
  | .inst _ _ => true

/-- Property lookup on an object field list; `none` when the key is absent. -/
def findKeyF : List Field → String → Option JValue
  | [], _ => none
  | (k, v) :: fs, key => if k = key then some v else findKeyF fs key

/-- JavaScript property access `o[key]`, yielding `undefined` for a missing key. -/
def getKey (fs : List Field) (key : String) : JValue :=
  (findKeyF fs key).getD .undefined

/-- Whether the object binds the key (JavaScript `key in o`). -/
def hasKeyF : List Field → String → Bool
  | [], _ => false
  | (k, _) :: fs, key => k = key || hasKeyF fs key

/-- Property access on a general value: objects look up the field, any other
value yields `undefined` (the only shapes the embedded code reads from). -/
def getKeyV : JValue → String → JValue
  | .obj fs, key => getKey fs key
  | _, _ => .undefined

/-- View a value as an object field list (non-objects have no own fields). -/
def asObjFields : JValue → List Field
  | .obj fs => fs
  | _ => []

/-- JavaScript property assignment `o[key] = v`: replaces the binding in
place if present, otherwise appends it. -/
def setKeyF : List Field → String → JValue → List Field
  | [], key, v => [(key, v)]
  | (k, w) :: fs, key, v =>
    if k = key then (k, v) :: fs else (k, w) :: setKeyF fs key v

/-- Property assignment on a general value (no-op on non-objects). -/
def setKeyV : JValue → String → JValue → JValue
  | .obj fs, key, v => .obj (setKeyF fs key v)
  | o, _, _ => o

/-- Elements contributed by a value to `Array.prototype.concat`: an array
spreads its elements, any other value is appended as a single element. -/
def concatElems : JValue → List JValue
  | .arr xs => xs
  | v => [v]

/-- Whether a value is strictly `undefined` (`v === undefined`). -/
def isUndefined : JValue → Bool
  | .undefined => true
  | _ => false

/-- The lodash `||` idiom on values: `a || b` evaluates to `a` when truthy,
otherwise to `b`. -/
def jsOr (a b : JValue) : JValue :=
  if truthy a then a else b

/-- The module's customizer passed to lodash `mergeWith`
(src/unnamed/part_000): when the destination value is an array, the merged
value is the concatenation of the two; otherwise the customizer declines
(returns `undefined`) and the default merge behavior applies. -/
def mergeWithCustomizer (objValue srcValue : JValue) : Option JValue :=
  match objValue with
  | .arr xs => some (.arr (xs ++ concatElems srcValue))
  | _ => none

mutual

/-- Modelled from the documented semantics of `lodash.mergewith` for one
key-level merge step of source value `s` over destination value `o`. When
`cust` is true the module's `mergeWithCustomizer` is consulted first (this
is how `merge(..., mergeWithCustomizer)` behaves); otherwise (and when the
customizer declines) the default deep-merge applies: `undefined` sources
are skipped, two arrays merge index-wise, two plain objects merge
recursively, and any other source value overwrites the destination. -/
def mergeKey (cust : Bool) (o s : JValue) : JValue :=
  match (if cust then mergeWithCustomizer o s else none) with
  | some v => v
  | none =>
    match s with
    | .undefined => o
    | .arr ys =>
      match o with
      | .arr xs => .arr (mergeArr cust xs ys)
      | _ => s
    | .obj fs =>
      match o with
      | .obj gs => .obj (mergeObjs cust gs fs)
      | _ => s
    | _ => s
termination_by sizeOf s

/-- Index-wise merge of a source array over a destination array (default
lodash deep-merge behavior for two arrays): indices present in both are
merged recursively, surplus elements of either side are kept. -/
def mergeArr (cust : Bool) (xs ys : List JValue) : List JValue :=
  match xs, ys with
  | xs, [] => xs
  | [], y :: ys => y :: mergeArr cust [] ys
  | x :: xs, y :: ys => mergeKey cust x y :: mergeArr cust xs ys
termination_by sizeOf ys

/-- Merge of the fields of a source object over a destination field list:
source fields are processed in order, each assigned through `assignKey`. -/
def mergeObjs (cust : Bool) (gs : List Field) (fs : List Field) : List Field :=
  match fs with
  | [] => gs
  | (k, sv) :: fs => mergeObjs cust (assignKey cust gs k sv) fs
termination_by sizeOf fs

/-- Assignment of one merged source field into the destination field list:
if the key is already bound every binding of it is replaced by the merge of
its value with the source value, otherwise the key is appended bound to the
merge of `undefined` with the source value. -/
def assignKey (cust : Bool) (gs : List Field) (k : String) (sv : JValue) : List Field :=
  if hasKeyF gs k then
    gs.map (fun p => if p.1 = k then (k, mergeKey cust p.2 sv) else p)
  else
    gs ++ [(k, mergeKey cust .undefined sv)]
termination_by 1 + sizeOf sv

end

/-! ## Utility predicates (src/unnamed/part_000, `core/utils`) -/

/-- Returns a human-readable representation of the boolean value. -/
def boolToText (value : Bool) : String :=
  if value then "enabled" else "disabled"

/-- Returns the evaluated boolean value for the given boolean-like
environment variable: `Boolean(env && env.toLowerCase() !== 'false' && env !== '0')`.
An absent or empty string is falsy before the comparisons. -/
def envToBool (env : Option String) : Bool :=
  match env with
  | none => false
  | some s => !(s == "") && !(s.toLower == "false") && !(s == "0")

/-- Resolved mock-method selection: the source field is boolean `true`
(mock everything), boolean `false`, or an explicit method list. -/
inductive MockMethodsSetting where
  | boolSetting (b : Bool)
  | listSetting (ms : List String)
  deriving Repr, DecidableEq

/-- User-supplied lazy configuration object; `none` fields were not given
and fall back to `defaultLazyOptions` in the merge. -/
structure LazyUser where
  injectMock : Option Bool := none
  injectLoadHook : Option Bool := none
  mockApiMethods : Option MockMethodsSetting := none
  chunkName : Option String := none
  webpackPrefetch : Option Bool := none
  webpackPreload : Option Bool := none
  deriving Repr, DecidableEq

/-- The `lazy` module option: falsy, or truthy with a user object
(the bare value `true` is the empty user object, since lodash-merging a
boolean source over the defaults is a no-op). -/
inductive LazySetting where
  | lazyOff
  | lazyOn (u : LazyUser)
  deriving Repr, DecidableEq

/-- The `tracing` module option: falsy, or truthy with a user configuration
object (the bare boolean `true` contributes the empty object, since the
source merges `typeof options.tracing === 'boolean' ? {} : options.tracing`
over the tracing defaults). -/
inductive TracingSetting where
  | tracingOff
  | tracingOn (userFields : List Field)
  deriving Repr, DecidableEq

/-- The `ResolvedModuleConfiguration` of the source: the module options
after the setup-time defaults merge, as consumed by the hooks and option
resolvers. The source field `initialize` is called `initializeFlag` here.
Open-ended nested objects (`config`, overlays, integration toggles,
`publishRelease`) are kept as JavaScript-like values. -/
structure ResolvedModuleConfiguration where
  dsn : String
  initializeFlag : Bool
  disabled : Bool
  disableClientSide : Bool
  disableServerSide : Bool
  runtimeConfigKey : String
  disableServerRelease : Bool
  disableClientRelease : Bool
  logMockCalls : Bool
  sourceMapStyle : String
  lazy : LazySetting
  tracing : TracingSetting := .tracingOff
  publishRelease : JValue
  clientIntegrations : List Field
  serverIntegrations : List Field
  config : List Field
  clientConfig : List Field
  serverConfig : List Field
  deriving Repr

/-- Determines if Sentry can be initialized:
`Boolean(options.initialize && options.dsn)` — the DSN string is truthy
exactly when non-empty. -/
def canInitialize (options : ResolvedModuleConfiguration) : Bool :=
  options.initializeFlag && truthy (.str options.dsn)

/-- Returns true if browser Sentry is enabled. -/
def clientSentryEnabled (options : ResolvedModuleConfiguration) : Bool :=
  !options.disabled && !options.disableClientSide

/-- Returns true if node Sentry is enabled. -/
def serverSentryEnabled (options : ResolvedModuleConfiguration) : Bool :=
  !options.disabled && !options.disableServerSide

/-! ## Module setup (src/unnamed/part_000, `defineNuxtModule.setup`) -/

/-- The boolean-like environment variables read while building the
setup-time defaults object. -/
structure EnvVars where
  sentryDsn : Option String := none
  sentryDisabled : Option String := none
  sentryInit : Option String := none
  sentryDisableClientSide : Option String := none
  sentryDisableServerSide : Option String := none
  sentryPublishRelease : Option String := none
  sentryDisableServerRelease : Option String := none
  sentryDisableClientRelease : Option String := none
  deriving Repr

/-- The `defaults : ModuleConfiguration` object built at setup time
(src/unnamed/part_000 lines 70-103); `sentryInit` is
`process.env.SENTRY_INITIALIZE`, and the `dsn` default is
`process.env.SENTRY_DSN || ''`. -/
def defaultsObject (env : EnvVars) (dev : Bool) : List Field :=
  [ ("lazy", .bool false),
    ("dsn", .str (env.sentryDsn.getD "")),
    ("disabled", .bool (envToBool env.sentryDisabled || false)),
    ("initialize", .bool (envToBool env.sentryInit || true)),
    ("runtimeConfigKey", .str "sentry"),
    ("disableClientSide", .bool (envToBool env.sentryDisableClientSide || false)),
    ("disableServerSide", .bool (envToBool env.sentryDisableServerSide || false)),
    ("publishRelease", .bool (envToBool env.sentryPublishRelease || false)),
    ("disableServerRelease", .bool (envToBool env.sentryDisableServerRelease || false)),
    ("disableClientRelease", .bool (envToBool env.sentryDisableClientRelease || false)),
    ("logMockCalls", .bool true),
    ("sourceMapStyle", .str "source-map"),
    ("tracing", .bool false),
    ("clientIntegrations", .obj
      [ ("Dedupe", .obj []),
        ("ExtraErrorData", .obj []),
        ("ReportingObserver", .obj []),
        ("RewriteFrames", .obj []),
        ("Vue", .obj [("attachProps", .bool true), ("logErrors", .bool dev)]) ]),
    ("serverIntegrations", .obj
      [ ("Dedupe", .obj []),
        ("ExtraErrorData", .obj []),
        ("RewriteFrames", .obj []),
        ("Transaction", .obj []) ]),
    ("config", .obj [("environment", .str (if dev then "development" else "production"))]),
    ("serverConfig", .obj []),
    ("clientConfig", .obj []),
    ("requestHandlerConfig", .obj []) ]

/-- The setup-time top-level options merge
`merge({}, defaults, topLevelOptions, moduleOptions, mergeWithCustomizer)`. -/
def setupOptions (env : EnvVars) (dev : Bool)
    (topLevelOptions moduleOptions : List Field) : List Field :=
  mergeObjs true
    (mergeObjs true
      (mergeObjs true [] (defaultsObject env dev)) topLevelOptions) moduleOptions

/-- The `defaultsPublishRelease : SentryCliPluginOptions` object of setup. -/
def defaultsPublishRelease : List Field :=
  [ ("include", .arr []),
    ("ignore", .arr [.str "node_modules", .str ".nuxt/dist/client/img"]),
    ("configFile", .str ".sentryclirc") ]

/-- The setup-time release-publishing options merge
`merge(defaultsPublishRelease, options.publishRelease, mergeWithCustomizer)`,
performed when `options.publishRelease` is truthy (a truthy non-object such
as `true` contributes no fields, as in lodash). -/
def resolvePublishReleaseOptions (userPublishRelease : JValue) : List Field :=
  mergeObjs true defaultsPublishRelease (asObjFields userPublishRelease)

/-! ## Option resolution (src/lib/core — `options`) -/

def PLUGGABLE_INTEGRATIONS : List String :=
  ["CaptureConsole", "Debug", "Dedupe", "ExtraErrorData", "ReportingObserver",
   "RewriteFrames", "Vue"]

def BROWSER_INTEGRATIONS : List String :=
  ["InboundFilters", "FunctionToString", "TryCatch", "Breadcrumbs",
   "GlobalHandlers", "LinkedErrors", "UserAgent"]

def SERVER_INTEGRATIONS : List String :=
  ["CaptureConsole", "Debug", "Dedupe", "ExtraErrorData", "RewriteFrames",
   "Modules", "Transaction"]

/-- Whether a client integration toggle name survives the validation loop
of `resolveClientOptions`. -/
def clientIntegrationAllowed (name : String) : Bool :=
  PLUGGABLE_INTEGRATIONS.contains name || BROWSER_INTEGRATIONS.contains name

/-- Whether a server integration toggle name survives the validation loop
of `resolveServerOptions`. -/
def serverIntegrationAllowed (name : String) : Bool :=
  SERVER_INTEGRATIONS.contains name

/-- The validation loop over the integration toggle map: unrecognized keys
are deleted from the map; the second component lists the keys warned about
(one `logger.warn` per deleted key). -/
def validateIntegrations (allowed : String → Bool) (m : List Field) :
    List Field × List String :=
  (m.filter (fun p => allowed p.1), (m.map Prod.fst).filter (fun k => !allowed k))

/-- Keys of the truthy toggles: `Object.keys(integrations).filter(key => integrations[key])` — the keys
of the toggles whose value is truthy. -/
def filterDisabledIntegration (integrations : List Field) : List String :=
  (integrations.map Prod.fst).filter (fun key => truthy (getKey integrations key))

/-- The number of own enumerable keys of a value (`Object.keys(v).length`). -/
def objectKeysLength : JValue → Nat
  | .obj fs => fs.length
  | .arr xs => xs.length
  | .str s => s.length
  | _ => 0

/-- The resolved lazy configuration after `resolveLazyOptions` ran. -/
structure ResolvedLazyOptions where
  injectMock : Bool
  injectLoadHook : Bool
  mockApiMethods : MockMethodsSetting
  chunkName : String
  webpackPrefetch : Bool
  webpackPreload : Bool
  deriving Repr, DecidableEq

/-- Lazy resolution `resolveLazyOptions` (src/lib/core, `options`): when the lazy policy is
truthy, merge the user options over `defaultLazyOptions` (each given field
overrides its default); with mocking off the mock list becomes empty; a
boolean `true` selection becomes all discovered API methods; an explicit
list is filtered against the discovered methods (the unmatched ones are
returned as warnings) and `captureException` is appended when missing.
Returns `none` when lazy is off (the option remains `false`). -/
def resolveLazyOptions (lz : LazySetting) (apiMethods : List String) :
    Option ResolvedLazyOptions × List String :=
  match lz with
  | .lazyOff => (none, [])
  | .lazyOn u =>
    let injectMock := u.injectMock.getD true
    let injectLoadHook := u.injectLoadHook.getD false
    let mockSetting := u.mockApiMethods.getD (.boolSetting true)
    let chunkName := u.chunkName.getD "sentry"
    let webpackPrefetch := u.webpackPrefetch.getD false
    let webpackPreload := u.webpackPreload.getD false
    let resolvedPair : MockMethodsSetting × List String :=
      if !injectMock then (.listSetting [], [])
      else
        match mockSetting with
        | .boolSetting true => (.listSetting apiMethods, [])
        | .boolSetting false => (.boolSetting false, [])
        | .listSetting ms =>
          let kept := ms.filter (fun m => apiMethods.contains m)
          let notfound := ms.filter (fun m => !apiMethods.contains m)
          (.listSetting
            (if kept.contains "captureException" then kept
             else kept ++ ["captureException"]), notfound)
    (some { injectMock, injectLoadHook, mockApiMethods := resolvedPair.1,
            chunkName, webpackPrefetch, webpackPreload }, resolvedPair.2)

/-- The tracing defaults object of `resolveTracingOptions`
(src/lib/core/hooks.ts lines 264-274); the sample rate `1.0` is modelled as
the integer-valued number `1` (only its truthiness matters here). -/
def defaultTracingOptions : List Field :=
  [ ("tracesSampleRate", .num 1),
    ("vueOptions", .obj
      [ ("tracing", .bool true),
        ("tracingOptions", .obj
          [ ("hooks", .arr [.str "mount", .str "update"]),
            ("timeout", .num 2000),
            ("trackComponents", .bool true) ]) ]),
    ("browserOptions", .obj []) ]

/-- Tracing resolution `resolveTracingOptions` (src/lib/core/hooks.ts lines
262-280): when the tracing policy is truthy, merge the user fields over the
defaults with a plain (customizer-free) lodash merge, and, when
`options.config.tracesSampleRate` is falsy, assign into the config the
resolved tracing sample rate. Returns the mutated config and the resolved
tracing object (`none` when tracing is off). -/
def resolveTracingOptions (tr : TracingSetting) (config : List Field) :
    List Field × Option (List Field) :=
  match tr with
  | .tracingOff => (config, none)
  | .tracingOn userFields =>
    let tracing := mergeObjs false defaultTracingOptions userFields
    let config :=
      if truthy (getKey config "tracesSampleRate") then config
      else setKeyF config "tracesSampleRate" (getKey tracing "tracesSampleRate")
    (config, some tracing)

/-- JavaScript object-spread accumulation, for the literal
`{ dsn: options.dsn, ...options.clientConfig }`. -/
def objSpread (base overlay : List Field) : List Field :=
  overlay.foldl (fun acc p => setKeyF acc p.1 p.2) base

/-- The payload returned by `resolveClientOptions`; warnings are modelled
as the lists of offending names. The static name lists and the tracing
payload of the source return object carry no claim content and are
omitted. -/
structure ClientOptionsPayload where
  dev : Bool
  runtimeConfigKey : String
  config : List Field
  lazy : Option ResolvedLazyOptions
  apiMethods : List String
  logMockCalls : Bool
  initializeAllowed : Bool
  integrations : List Field
  warnedIntegrations : List String
  warnedMockMethods : List String
  deriving Repr

/-- The client resolver `resolveClientOptions` (src/lib/core/hooks.ts lines 282-323): deep-copy
the module options, overlay `clientConfig` on `config` with a plain
(customizer-free) lodash merge, resolve lazy options against the API
methods discovered from `@sentry/browser` (passed in as `apiMethods`),
validate the client integration toggles against the allow-lists, and
return the client payload. The `resolveTracingOptions` call of this
resolver mutates only `options.tracing` (returned in the unmodelled
tracing payload) and `options.config.tracesSampleRate` — the payload
`config` modelled here was already built from `clientConfig` on the line
before, so neither mutation feeds any modelled field. -/
def resolveClientOptions (dev : Bool) (apiMethods : List String)
    (moduleOptions : ResolvedModuleConfiguration) : ClientOptionsPayload :=
  let clientConfig :=
    mergeObjs false (mergeObjs false [] moduleOptions.config) moduleOptions.clientConfig
  let lazyPair := resolveLazyOptions moduleOptions.lazy apiMethods
  let validated := validateIntegrations clientIntegrationAllowed moduleOptions.clientIntegrations
  { dev := dev
    runtimeConfigKey := moduleOptions.runtimeConfigKey
    config := objSpread [("dsn", .str moduleOptions.dsn)] clientConfig
    lazy := lazyPair.1
    apiMethods := apiMethods
    logMockCalls := moduleOptions.logMockCalls
    initializeAllowed := canInitialize moduleOptions
    integrations := (filterDisabledIntegration validated.1).map
        (fun key => (key, getKey validated.1 key))
    warnedIntegrations := validated.2
    warnedMockMethods := lazyPair.2 }

/-- The payload returned by `resolveServerOptions`. -/
structure ServerOptionsPayload where
  config : List Field
  apiMethods : List String
  lazy : Option ResolvedLazyOptions
  logMockCalls : Bool
  warnedIntegrations : List String
  warnedMockMethods : List String
  deriving Repr

/-- The config-assembly core of the server resolver
(src/lib/core/hooks.ts lines 330-354): validate the server integration
toggles, build an instance for every remaining truthy toggle
(`new Integrations[name](opt)` when `Object.keys(opt).length` is non-zero,
else `new Integrations[name]()`), place the instances under the
(source-typo) key `intergrations` of a default config next to the DSN,
overlay `options.config` and `options.serverConfig` with plain lodash
merges, then — when the framework `publicRuntimeConfig` is not a function
(`none` models a function) and binds the runtime-config key — overlay its
`config` and `serverConfig` sub-objects on top. -/
def resolveServerConfigCore (publicRuntimeConfig : Option (List Field))
    (moduleOptions : ResolvedModuleConfiguration) : List Field :=
  let validated := validateIntegrations serverIntegrationAllowed moduleOptions.serverIntegrations
  let defaultConfig : List Field :=
    [ ("dsn", .str moduleOptions.dsn),
      ("intergrations", .arr ((filterDisabledIntegration validated.1).map
        (fun name =>
          let opt := getKey validated.1 name
          if objectKeysLength opt != 0 then .inst name opt else .inst name .undefined))) ]
  let config1 :=
    mergeObjs false (mergeObjs false defaultConfig moduleOptions.config) moduleOptions.serverConfig
  match publicRuntimeConfig with
  | some prc =>
    if truthy (.str moduleOptions.runtimeConfigKey)
        && hasKeyF prc moduleOptions.runtimeConfigKey then
      let rc := getKey prc moduleOptions.runtimeConfigKey
      mergeObjs false
        (mergeObjs false config1 (asObjFields (getKeyV rc "config")))
        (asObjFields (getKeyV rc "serverConfig"))
    else config1
  | none => config1

/-- The server resolver `resolveServerOptions` (src/lib/core/hooks.ts lines
325-366): assemble the config through `resolveServerConfigCore`, resolve
the lazy options against the API methods discovered from `@sentry/node`
(passed in as `apiMethods`), and then — as the source does at line 358,
after the runtime-config merge — run `resolveTracingOptions` over the
assembled config, so that a falsy `tracesSampleRate` is overwritten with
the resolved tracing sample rate whenever tracing is enabled. The mutated
config is what the returned payload carries. -/
def resolveServerOptions (publicRuntimeConfig : Option (List Field))
    (apiMethods : List String)
    (moduleOptions : ResolvedModuleConfiguration) : ServerOptionsPayload :=
  let validated := validateIntegrations serverIntegrationAllowed moduleOptions.serverIntegrations
  let config2 := resolveServerConfigCore publicRuntimeConfig moduleOptions
  let lazyPair := resolveLazyOptions moduleOptions.lazy apiMethods
  let tracingPair := resolveTracingOptions moduleOptions.tracing config2
  { config := tracingPair.1
    apiMethods := apiMethods
    lazy := lazyPair.1
    logMockCalls := moduleOptions.logMockCalls
    warnedIntegrations := validated.2
    warnedMockMethods := lazyPair.2 }

/-! ## Lifecycle hooks (src/lib/core/hooks.ts) -/

/-- Release detection `resolveRelease` (src/lib/core, `options`): when `'release' in
moduleOptions.config` the detection is skipped (the function returns
`undefined`); otherwise the sentry-cli `proposeVersion` output — modelled
by `autoRelease`, `none` when the tool fails — is trimmed and returned. -/
def resolveRelease (moduleOptions : ResolvedModuleConfiguration)
    (autoRelease : Option String) : JValue :=
  if hasKeyF moduleOptions.config "release" then .undefined
  else
    match autoRelease with
    | some s => .str s.trim
    | none => .undefined

/-- A webpack plugin instance found in a build configuration. -/
inductive WebpackPluginInst where
  | sentryWebpackPlugin (opts : JValue)
  | otherPlugin (name : String)
  deriving Repr, DecidableEq

/-- One webpack build configuration, as mutated by the hook: its `devtool`
(source-map emission mode, `none` when unset) and its plugin list. -/
structure WebpackConfig where
  devtool : Option String
  plugins : List WebpackPluginInst
  deriving Repr, DecidableEq

/-- The framework options the webpack hook reads: `router.base` and
`build.publicPath` (each `none` when not a string, failing the source's
`typeof` checks) and the build directory. -/
structure NuxtOpts where
  routerBase : Option String
  buildPublicPath : Option String
  buildDir : String
  deriving Repr

/-- Ambient inputs of the webpack hook: whether the dynamic import of
`@sentry/webpack-plugin` succeeds, the sentry-cli proposed version (raw,
`none` on failure), and the two commit-related environment variables. -/
structure HookEnv where
  webpackPluginAvailable : Bool
  autoRelease : Option String
  autoAttachCommits : Option String
  releaseRepo : Option String
  deriving Repr

/-- Outcome of a completed `webpackConfigHook` run: the (possibly mutated)
build configurations and whether the no-release warning was logged. -/
structure HookResult where
  configs : List WebpackConfig
  warnedNoRelease : Bool
  deriving Repr, DecidableEq

/-- Modelled from `path.posix.join` for the slash-joining cases the hook
exercises (joining a router base with a public path). -/
def posixJoin (a b : String) : String :=
  if a = "" then b
  else if b = "" then a
  else if a.endsWith "/" then
    (if b.startsWith "/" then a ++ b.drop 1 else a ++ b)
  else
    (if b.startsWith "/" then a ++ b else a ++ "/" ++ b)

/-- The release value the hook resolves:
`options.config.release || publishRelease.release || await resolveRelease(options)`. -/
def resolvedReleaseChain (options : ResolvedModuleConfiguration) (env : HookEnv) : JValue :=
  jsOr (getKey options.config "release")
    (jsOr (getKey (asObjFields options.publishRelease) "release")
      (resolveRelease options env.autoRelease))

/-- The hook's `urlPrefix` derivation (src/lib/core/hooks.ts lines 81-87):
when `publishRelease.urlPrefix` is falsy and both `router.base` and
`build.publicPath` are strings, assign the posix join, `~`-prefixed when it
starts with a slash. -/
def deriveUrlPrefixStep (nuxt : NuxtOpts) (publishRelease : List Field) : List Field :=
  if truthy (getKey publishRelease "urlPrefix") then publishRelease
  else
    match nuxt.routerBase, nuxt.buildPublicPath with
    | some base, some pub =>
      let publicPath := posixJoin base pub
      setKeyF publishRelease "urlPrefix"
        (.str (if publicPath.startsWith "/" then "~" ++ publicPath else publicPath))
    | _, _ => publishRelease

/-- The hook's `include` normalization and build-directory pushes
(src/lib/core/hooks.ts lines 89-101): a non-array `include` becomes a
singleton (or empty when falsy) array, then the server and client dist
directories are pushed unless individually disabled. -/
def buildIncludeList (nuxt : NuxtOpts) (options : ResolvedModuleConfiguration)
    (publishRelease : List Field) : List Field :=
  let inc0 : List JValue :=
    match getKey publishRelease "include" with
    | .arr xs => xs
    | v => if truthy v then [v] else []
  let inc1 := inc0 ++
    (if options.disableServerRelease then []
     else [.str (nuxt.buildDir ++ "/dist/server")])
  let inc2 := inc1 ++
    (if options.disableClientRelease then []
     else [.str (nuxt.buildDir ++ "/dist/client")])
  setKeyF publishRelease "include" (.arr inc2)

/-- The hook's `setCommits` population (src/lib/core/hooks.ts lines
113-129), active when `SENTRY_AUTO_ATTACH_COMMITS` parses truthy: default
the object, set `auto: true` when strictly undefined, and set `repo` from
`SENTRY_RELEASE_REPO` when non-empty and strictly undefined. -/
def populateSetCommits (env : HookEnv) (publishRelease : List Field) : List Field :=
  if envToBool env.autoAttachCommits then
    let prA :=
      if truthy (getKey publishRelease "setCommits") then publishRelease
      else setKeyF publishRelease "setCommits" (.obj [])
    let sc0 := getKey prA "setCommits"
    let sc1 :=
      if isUndefined (getKeyV sc0 "auto") then setKeyV sc0 "auto" (.bool true)
      else sc0
    let repo := env.releaseRepo.getD ""
    let sc2 :=
      if !(repo == "") && isUndefined (getKeyV sc1 "repo") then
        setKeyV sc1 "repo" (.str repo)
      else sc1
    setKeyF prA "setCommits" sc2
  else publishRelease

/-- The hook's final mutation (src/lib/core/hooks.ts lines 135-140):
append the plugin to the last build configuration's plugin list; an empty
list makes the indexing yield `undefined` and the property access throw. -/
def appendPluginToLastConfig (plugin : WebpackPluginInst)
    (configs : List WebpackConfig) : Except String (List WebpackConfig) :=
  match configs.getLast? with
  | none => .error "TypeError: cannot read properties of undefined"
  | some lastConfig =>
    .ok (configs.dropLast ++
      [{ lastConfig with plugins := lastConfig.plugins ++ [plugin] }])

/-- The hook `webpackConfigHook` (src/lib/core/hooks.ts lines 65-141). The import
failure of `@sentry/webpack-plugin` is the thrown `Error`; copying
`options.publishRelease` with `merge({}, ...)` is value semantics here; the
`urlPrefix` derivation, `include` normalization and build-directory pushes,
release resolution with early warned return, `setCommits` population,
devtool mutation of every entry, and plugin append to the last entry follow
the source line by line. An empty configuration list would make the last
element `undefined` and the `config.plugins` access throw, modelled as the
`TypeError` error case. -/
def webpackConfigHook (nuxt : NuxtOpts) (webpackConfigs : List WebpackConfig)
    (options : ResolvedModuleConfiguration) (env : HookEnv) :
    Except String HookResult :=
  if !env.webpackPluginAvailable then
    .error "The @sentry/webpack-plugin package must be installed as a dev dependency to use the publishRelease option."
  else
    let pr2 := buildIncludeList nuxt options
      (deriveUrlPrefixStep nuxt (asObjFields options.publishRelease))
    let rel :=
      jsOr (getKey options.config "release")
        (jsOr (getKey pr2 "release") (resolveRelease options env.autoRelease))
    let pr3 := setKeyF pr2 "release" rel
    if !truthy rel then
      .ok { configs := webpackConfigs, warnedNoRelease := true }
    else
      let pr4 := populateSetCommits env pr3
      let mutated := webpackConfigs.map
        (fun c => { c with devtool := some options.sourceMapStyle })
      (appendPluginToLastConfig (.sentryWebpackPlugin (.obj pr4)) mutated).map
        (fun cs => { configs := cs, warnedNoRelease := false })

/-- The process-wide server Sentry state: whether `process.sentry` is set,
how many times `Sentry.init` ran, and the configs it was given (in order). -/
structure SentryProcState where
  sentrySet : Bool
  initCount : Nat
  initConfigs : List (List Field)
  deriving Repr, DecidableEq

/-- Server initialization `initializeServerSentry` (src/lib/core/hooks.ts lines 151-176): return
immediately when `process.sentry` is set; otherwise read the persisted
release (`releaseFromFile`, `none` when the generated file is missing or
unreadable — the failure is ignored), resolve the server options, merge the
release into their config, call `Sentry.init` only under `canInitialize`,
and set `process.sentry` unconditionally. -/
def initializeServerSentry (publicRuntimeConfig : Option (List Field))
    (apiMethods : List String) (moduleOptions : ResolvedModuleConfiguration)
    (releaseFromFile : Option String) (st : SentryProcState) : SentryProcState :=
  if st.sentrySet then st
  else
    let serverOptions := resolveServerOptions publicRuntimeConfig apiMethods moduleOptions
    let releaseV : JValue :=
      match releaseFromFile with
      | some r => .str r
      | none => .undefined
    let config := mergeObjs false [("release", releaseV)] serverOptions.config
    if canInitialize moduleOptions then
      { sentrySet := true, initCount := st.initCount + 1,
        initConfigs := st.initConfigs ++ [config] }
    else
      { st with sentrySet := true }

/-- Shutdown `shutdownServerSentry`: when `process.sentry` is set, close the client
and clear the marker. -/
def shutdownServerSentry (st : SentryProcState) : SentryProcState :=
  if st.sentrySet then { st with sentrySet := false } else st

/-! ## Association-list and merge lemmas -/

/-- Keys of a JavaScript object are pairwise distinct. -/
def keysDistinct (fs : List Field) : Prop :=
  (fs.map Prod.fst).Nodup

instance (fs : List Field) : Decidable (keysDistinct fs) := by
  unfold keysDistinct; infer_instance

theorem findKeyF_eq_none_of_not_mem :
    ∀ (fs : List Field) (k : String), k ∉ fs.map Prod.fst → findKeyF fs k = none := by
  intro fs k h
  induction fs with
  | nil => rfl
  | cons p fs ih =>
    obtain ⟨k0, v0⟩ := p
    simp only [List.map_cons, List.mem_cons, not_or] at h
    simp only [findKeyF, if_neg (fun hh : k0 = k => h.1 hh.symm)]
    exact ih h.2

theorem hasKeyF_eq_isSome (fs : List Field) (k : String) :
    hasKeyF fs k = (findKeyF fs k).isSome := by
  induction fs with
  | nil => rfl
  | cons p fs ih =>
    obtain ⟨k0, v0⟩ := p
    by_cases h : k0 = k <;> simp [hasKeyF, findKeyF, h, ih]

theorem findKeyF_append (gs hs : List Field) (k : String) :
    findKeyF (gs ++ hs) k =
      (match findKeyF gs k with
       | some v => some v
       | none => findKeyF hs k) := by
  induction gs with
  | nil => rfl
  | cons p gs ih =>
    obtain ⟨k0, v0⟩ := p
    by_cases h : k0 = k <;> simp [findKeyF, h, ih]

theorem findKeyF_map_assign (c : Bool) (k : String) (sv : JValue) :
    ∀ gs : List Field,
      findKeyF (gs.map (fun p => if p.1 = k then (k, mergeKey c p.2 sv) else p)) k
        = (findKeyF gs k).map (fun v => mergeKey c v sv) := by
  intro gs
  induction gs with
  | nil => rfl
  | cons p gs ih =>
    obtain ⟨k0, v0⟩ := p
    simp only [List.map_cons]
    by_cases h : k0 = k
    · subst h
      rw [if_pos rfl]
      simp [findKeyF, ih]
    · rw [if_neg h]
      simp [findKeyF, h, ih]

theorem findKeyF_map_assign_ne (c : Bool) (k : String) (sv : JValue)
    (k' : String) (h : k' ≠ k) :
    ∀ gs : List Field,
      findKeyF (gs.map (fun p => if p.1 = k then (k, mergeKey c p.2 sv) else p)) k'
        = findKeyF gs k' := by
  intro gs
  induction gs with
  | nil => rfl
  | cons p gs ih =>
    obtain ⟨k0, v0⟩ := p
    simp only [List.map_cons]
    by_cases hk : k0 = k
    · subst hk
      rw [if_pos rfl]
      have hne : ¬ k0 = k' := fun hh => h hh.symm
      simp [findKeyF, hne, ih]
    · rw [if_neg hk]
      by_cases hk' : k0 = k' <;> simp [findKeyF, hk', ih]

theorem getKey_assignKey_self (c : Bool) (gs : List Field) (k : String) (sv : JValue) :
    getKey (assignKey c gs k sv) k = mergeKey c (getKey gs k) sv := by
  unfold assignKey
  by_cases h : hasKeyF gs k = true
  · rw [if_pos h, hasKeyF_eq_isSome] at *
    obtain ⟨v, hv⟩ := Option.isSome_iff_exists.mp h
    simp [getKey, findKeyF_map_assign, hv]
  · rw [if_neg h]
    rw [hasKeyF_eq_isSome] at h
    have hn : findKeyF gs k = none := by
      cases hf : findKeyF gs k with
      | none => rfl
      | some v => exact absurd (by simp [hf]) h
    simp [getKey, findKeyF_append, hn, findKeyF]

theorem findKeyF_assignKey_ne (c : Bool) (gs : List Field) (k : String)
    (sv : JValue) (k' : String) (h : k' ≠ k) :
    findKeyF (assignKey c gs k sv) k' = findKeyF gs k' := by
  unfold assignKey
  by_cases hk : hasKeyF gs k = true
  · rw [if_pos hk]
    exact findKeyF_map_assign_ne c k sv k' h gs
  · rw [if_neg hk, findKeyF_append]
    cases hf : findKeyF gs k' with
    | some v => rfl
    | none =>
      have hne : ¬ k = k' := fun hh => h hh.symm
      simp [findKeyF, hne]

theorem getKey_mergeObjs (c : Bool) (k : String) :
    ∀ (fs gs : List Field), keysDistinct fs →
      getKey (mergeObjs c gs fs) k =
        (match findKeyF fs k with
         | some sv => mergeKey c (getKey gs k) sv
         | none => getKey gs k) := by
  intro fs
  induction fs with
  | nil => intro gs _; simp [mergeObjs, findKeyF]
  | cons p fs ih =>
    obtain ⟨k0, sv⟩ := p
    intro gs hd
    rw [keysDistinct, List.map_cons, List.nodup_cons] at hd
    simp only [mergeObjs]
    by_cases h : k0 = k
    · subst h
      rw [ih _ hd.2, findKeyF_eq_none_of_not_mem fs k0 hd.1]
      simp [findKeyF, getKey_assignKey_self]
    · rw [ih _ hd.2]
      have hg : getKey (assignKey c gs k0 sv) k = getKey gs k := by
        rw [getKey, findKeyF_assignKey_ne c gs k0 sv k (fun hh => h hh.symm)]; rfl
      simp only [findKeyF, if_neg h]
      cases hf : findKeyF fs k <;> simp [hf, hg]

theorem getKey_mergeObjs_not_bound (c : Bool) (k : String) :
    ∀ (fs gs : List Field), findKeyF fs k = none →
      getKey (mergeObjs c gs fs) k = getKey gs k := by
  intro fs
  induction fs with
  | nil => intro gs _; simp [mergeObjs]
  | cons p fs ih =>
    obtain ⟨k0, sv⟩ := p
    intro gs hn
    simp only [findKeyF] at hn
    by_cases h : k0 = k
    · simp [h] at hn
    · rw [if_neg h] at hn
      simp only [mergeObjs]
      rw [ih _ hn, getKey, findKeyF_assignKey_ne c gs k0 sv k (fun hh => h hh.symm)]
      rfl

/-- Values that the default lodash merge assigns over any destination:
everything except `undefined` (skipped), arrays and plain objects
(merged recursively). -/
def isPrim : JValue → Bool
  | .undefined => false
  | .arr _ => false
  | .obj _ => false
  | _ => true

theorem mergeKey_prim (o s : JValue) (h : isPrim s = true) :
    mergeKey false o s = s := by
  cases s <;> simp_all [isPrim, mergeKey]

theorem mergeKey_arr_concat (xs : List JValue) (s : JValue) :
    mergeKey true (.arr xs) s = .arr (xs ++ concatElems s) := by
  cases s <;> simp [mergeKey, mergeWithCustomizer, concatElems]

theorem mergeKey_undefined_left (c : Bool) (s : JValue) (h : (s matches .arr _) = false) :
    mergeKey c .undefined s = (if s = .undefined then .undefined else s) := by
  cases s <;> simp_all [mergeKey, mergeWithCustomizer]

theorem findKeyF_setKeyF_ne (k : String) (v : JValue) (k' : String) (h : k' ≠ k) :
    ∀ fs : List Field, findKeyF (setKeyF fs k v) k' = findKeyF fs k' := by
  intro fs
  have hne : ¬ k = k' := fun hh => h hh.symm
  induction fs with
  | nil => simp [setKeyF, findKeyF, hne]
  | cons p fs ih =>
    obtain ⟨k0, v0⟩ := p
    by_cases hk : k0 = k
    · subst hk
      simp [setKeyF, findKeyF, hne]
    · by_cases hk' : k0 = k' <;> simp [setKeyF, findKeyF, hk, hk', h, ih]

theorem keys_filter_map_getKey {α : Type} (q : JValue → Bool) (g : String → JValue → α) :
    ∀ l : List Field, keysDistinct l →
      ((l.map Prod.fst).filter (fun k => q (getKey l k))).map (fun k => g k (getKey l k))
        = (l.filter (fun p => q p.2)).map (fun p => g p.1 p.2) := by
  intro l
  induction l with
  | nil => intro _; rfl
  | cons p l ih =>
    obtain ⟨k0, v0⟩ := p
    intro hd
    rw [keysDistinct, List.map_cons, List.nodup_cons] at hd
    have hhead : getKey ((k0, v0) :: l) k0 = v0 := by simp [getKey, findKeyF]
    have hrest : ∀ k ∈ l.map Prod.fst, getKey ((k0, v0) :: l) k = getKey l k := by
      intro k hk
      have hne : ¬ k0 = k := fun hh => hd.1 (hh ▸ hk)
      simp [getKey, findKeyF, hne]
    have hfilter : (l.map Prod.fst).filter (fun k => q (getKey ((k0, v0) :: l) k))
        = (l.map Prod.fst).filter (fun k => q (getKey l k)) :=
      List.filter_congr (fun k hk => by rw [hrest k hk])
    have hmap : ((l.map Prod.fst).filter (fun k => q (getKey l k))).map
          (fun k => g k (getKey ((k0, v0) :: l) k))
        = ((l.map Prod.fst).filter (fun k => q (getKey l k))).map
          (fun k => g k (getKey l k)) :=
      List.map_congr_left (fun k hk => by rw [hrest k ((List.mem_filter.mp hk).1)])
    rw [List.map_cons, List.filter_cons, List.filter_cons]
    by_cases hq : q v0
    · rw [if_pos (by simpa [hhead] using hq), if_pos (by simpa using hq)]
      rw [List.map_cons, List.map_cons, hfilter, hmap, ih hd.2, hhead]
    · rw [if_neg (by simpa [hhead] using hq), if_neg (by simpa using hq)]
      rw [hfilter, hmap, ih hd.2]

theorem findKeyF_filter_allowed (allowed : String → Bool) (k : String) :
    ∀ m : List Field, findKeyF (m.filter (fun p => allowed p.1)) k
      = (if allowed k then findKeyF m k else none) := by
  intro m
  induction m with
  | nil => simp [findKeyF]
  | cons p m ih =>
    obtain ⟨k0, v0⟩ := p
    rw [List.filter_cons]
    by_cases ha : allowed k0
    · by_cases hk : k0 = k
      · subst hk; simp [findKeyF, ha, ih]
      · simp [findKeyF, ha, hk, ih]
    · by_cases hk : k0 = k
      · subst hk; simp [findKeyF, ha, ih]
      · simp [findKeyF, ha, hk, ih]

theorem keysDistinct_filter (p : Field → Bool) (fs : List Field)
    (h : keysDistinct fs) : keysDistinct (fs.filter p) :=
  List.Nodup.sublist ((List.filter_sublist fs).map Prod.fst) h

theorem keysDistinct_defaultsObject (env : EnvVars) (dev : Bool) :
    keysDistinct (defaultsObject env dev) := by
  rw [keysDistinct]
  simp only [defaultsObject, List.map_cons, List.map_nil]
  decide

theorem getKey_setKeyF_ne (k : String) (v : JValue) (k2 : String) (h : k2 ≠ k)
    (fs : List Field) : getKey (setKeyF fs k v) k2 = getKey fs k2 := by
  rw [getKey, findKeyF_setKeyF_ne k v k2 h fs, getKey]

theorem getLast?_map_local {α β : Type} (f : α → β) :
    ∀ l : List α, (l.map f).getLast? = (l.getLast?).map f := by
  intro l
  induction l with
  | nil => rfl
  | cons x l ih =>
    cases l with
    | nil => rfl
    | cons y l =>
      simp only [List.map_cons] at *
      rw [List.getLast?_cons_cons, List.getLast?_cons_cons]
      simp [ih]

theorem dropLast_map_local {α β : Type} (f : α → β) :
    ∀ l : List α, (l.map f).dropLast = (l.dropLast).map f := by
  intro l
  induction l with
  | nil => rfl
  | cons x l ih =>
    cases l with
    | nil => rfl
    | cons y l =>
      simp only [List.map_cons, List.dropLast_cons₂] at *
      exact congrArg (f x :: ·) ih

theorem getKey_deriveUrlPrefixStep_release (nuxt : NuxtOpts) (fs : List Field) :
    getKey (deriveUrlPrefixStep nuxt fs) "release" = getKey fs "release" := by
  rw [deriveUrlPrefixStep]
  split
  · rfl
  · split
    · exact getKey_setKeyF_ne "urlPrefix" _ "release" (by decide) fs
    · rfl

theorem getKey_buildIncludeList_release (nuxt : NuxtOpts)
    (options : ResolvedModuleConfiguration) (fs : List Field) :
    getKey (buildIncludeList nuxt options fs) "release" = getKey fs "release" :=
  getKey_setKeyF_ne "include" _ "release" (by decide) fs

theorem appendPluginToLastConfig_of_ne_nil (plugin : WebpackPluginInst)
    (configs : List WebpackConfig) (h : configs ≠ []) :
    appendPluginToLastConfig plugin configs
      = .ok (configs.dropLast ++
          [{ configs.getLast h with
              plugins := (configs.getLast h).plugins ++ [plugin] }]) := by
  rw [appendPluginToLastConfig, List.getLast?_eq_getLast_of_ne_nil h]

/-- On the happy path (plugin import succeeded, release chain truthy) the
hook devtool-mutates every configuration and appends the plugin built from
the fully-prepared publish options to the last one. -/
theorem webpackConfigHook_ok (nuxt : NuxtOpts)
    (webpackConfigs : List WebpackConfig)
    (options : ResolvedModuleConfiguration) (env : HookEnv)
    (himport : env.webpackPluginAvailable = true)
    (hrel : truthy (resolvedReleaseChain options env) = true) :
    webpackConfigHook nuxt webpackConfigs options env
      = (appendPluginToLastConfig
          (.sentryWebpackPlugin (.obj (populateSetCommits env
            (setKeyF (buildIncludeList nuxt options
                (deriveUrlPrefixStep nuxt (asObjFields options.publishRelease)))
              "release" (resolvedReleaseChain options env)))))
          (webpackConfigs.map
            (fun c => { c with devtool := some options.sourceMapStyle }))).map
        (fun cs => { configs := cs, warnedNoRelease := false }) := by
  have hchain : jsOr (getKey options.config "release")
      (jsOr (getKey (buildIncludeList nuxt options
          (deriveUrlPrefixStep nuxt (asObjFields options.publishRelease))) "release")
        (resolveRelease options env.autoRelease))
      = resolvedReleaseChain options env := by
    rw [resolvedReleaseChain, getKey_buildIncludeList_release,
      getKey_deriveUrlPrefixStep_release]
  rw [webpackConfigHook, if_neg (by simp [himport])]
  simp only [hchain, hrel, Bool.not_true, Bool.false_eq_true, if_false]

/-- On the no-release path (plugin import succeeded, release chain falsy)
the hook warns and returns the configurations untouched. -/
theorem webpackConfigHook_no_release (nuxt : NuxtOpts)
    (webpackConfigs : List WebpackConfig)
    (options : ResolvedModuleConfiguration) (env : HookEnv)
    (himport : env.webpackPluginAvailable = true)
    (hrel : truthy (resolvedReleaseChain options env) = false) :
    webpackConfigHook nuxt webpackConfigs options env
      = .ok { configs := webpackConfigs, warnedNoRelease := true } := by
  have hchain : jsOr (getKey options.config "release")
      (jsOr (getKey (buildIncludeList nuxt options
          (deriveUrlPrefixStep nuxt (asObjFields options.publishRelease))) "release")
        (resolveRelease options env.autoRelease))
      = resolvedReleaseChain options env := by
    rw [resolvedReleaseChain, getKey_buildIncludeList_release,
      getKey_deriveUrlPrefixStep_release]
  rw [webpackConfigHook, if_neg (by simp [himport])]
  simp only [hchain, hrel, Bool.not_false, if_true]

/-! ## Shared concrete example inputs for witnesses and counterexamples -/

/-- A neutral framework-options object used in concrete examples (no router
base or public path strings, so no url-prefix derivation applies). -/
def exampleNuxt : NuxtOpts where
  routerBase := none
  buildPublicPath := none
  buildDir := ".nuxt"

/-- A hook environment where the webpack plugin imports fine but the CLI
proposes no version and no commit attachment is requested. -/
def exampleEnv : HookEnv where
  webpackPluginAvailable := true
  autoRelease := none
  autoAttachCommits := none
  releaseRepo := none

/-- A neutral resolved configuration used as the base of concrete examples. -/
def baseOptions : ResolvedModuleConfiguration where
  dsn := "https://key@sentry.example.io/1"
  initializeFlag := true
  disabled := false
  disableClientSide := false
  disableServerSide := false
  runtimeConfigKey := "sentry"
  disableServerRelease := false
  disableClientRelease := false
  logMockCalls := true
  sourceMapStyle := "source-map"
  lazy := .lazyOff
  publishRelease := .obj []
  clientIntegrations := []
  serverIntegrations := []
  config := []
  clientConfig := []
  serverConfig := []

/-! ## Claim theorems -/

/-- C1: for every resolved options object, `canInitialize(options)` returns
true if and only if the initialize flag is true and the DSN string is
non-empty; it returns false if either condition fails. -/
theorem c1_canInitialize_iff (options : ResolvedModuleConfiguration) :
    canInitialize options = true ↔
      (options.initializeFlag = true ∧ options.dsn ≠ "") := by
  simp [ canInitialize, truthy]

/-- C2: `envToBool` returns false exactly when the input is absent, is the
empty string (the falsy edge case the claim notes), equals `"0"`, or
case-insensitively equals `"false"`; it returns true for every other
string. -/
theorem c2_envToBool_false_iff (env : Option String) :
    envToBool env = false ↔
      (env = none ∨ env = some "" ∨ env = some "0" ∨
        ∃ s, env = some s ∧ s.toLower = "false") := by
  cases env with
  | none => simp [envToBool]
  | some s =>
    simp [envToBool]
    tauto

/-- C4: in both option resolvers, every integration-toggle key outside the
respective allow-list is removed from the map and warned about, every key
inside the allow-list is kept with its value, and the warning list of each
resolver is exactly the list of unrecognized keys — none is silently
kept. -/
theorem c4_integration_allowlist_filtering (m : List Field) (k : String)
    (dev : Bool) (apiMethods : List String) (prc : Option (List Field))
    (o : ResolvedModuleConfiguration) :
    (findKeyF (validateIntegrations clientIntegrationAllowed m).1 k
        = (if clientIntegrationAllowed k then findKeyF m k else none))
    ∧ ((k ∈ (validateIntegrations clientIntegrationAllowed m).2)
        ↔ (k ∈ m.map Prod.fst ∧ clientIntegrationAllowed k = false))
    ∧ (findKeyF (validateIntegrations serverIntegrationAllowed m).1 k
        = (if serverIntegrationAllowed k then findKeyF m k else none))
    ∧ ((k ∈ (validateIntegrations serverIntegrationAllowed m).2)
        ↔ (k ∈ m.map Prod.fst ∧ serverIntegrationAllowed k = false))
    ∧ (resolveClientOptions dev apiMethods o).warnedIntegrations
        = (validateIntegrations clientIntegrationAllowed o.clientIntegrations).2
    ∧ (resolveServerOptions prc apiMethods o).warnedIntegrations
        = (validateIntegrations serverIntegrationAllowed o.serverIntegrations).2 := by
  refine ⟨findKeyF_filter_allowed _ k m, ?_, findKeyF_filter_allowed _ k m, ?_, rfl, rfl⟩
  · simp [validateIntegrations, List.mem_filter]
  · simp [validateIntegrations, List.mem_filter]

/-- C5: with mocking enabled and an explicit user list of methods to mock,
the resolved mock list always contains `captureException` when it exists
among the discovered API methods, even when the user did not request it. -/
theorem c5_captureException_force_included (u : LazyUser)
    (apiMethods ms : List String)
    (hmock : u.injectMock.getD true = true)
    (hlist : u.mockApiMethods = some (.listSetting ms))
    (_hapi : "captureException" ∈ apiMethods) :
    ∃ l, (resolveLazyOptions (.lazyOn u) apiMethods).1
        = some { injectMock := true
                 injectLoadHook := u.injectLoadHook.getD false
                 mockApiMethods := .listSetting l
                 chunkName := u.chunkName.getD "sentry"
                 webpackPrefetch := u.webpackPrefetch.getD false
                 webpackPreload := u.webpackPreload.getD false }
        ∧ "captureException" ∈ l := by
  refine ⟨(let kept := ms.filter (fun m => apiMethods.contains m);
           if kept.contains "captureException" then kept
           else kept ++ ["captureException"]), ?_, ?_⟩
  · simp [resolveLazyOptions, hlist, hmock]
  · by_cases hc : (ms.filter (fun m => apiMethods.contains m)).contains "captureException" = true
    · rw [if_pos hc]
      have hc' : "captureException" ∈ ms ∧ "captureException" ∈ apiMethods := by
        simpa using hc
      simp [List.mem_filter, hc'.1, hc'.2]
    · rw [if_neg hc]
      simp

/-- C8: the server-initialization hook is idempotent in a process: from an
uninitialized state, under `canInitialize`, the first invocation activates
the client exactly once, and every subsequent invocation (with any
arguments) returns the state unchanged. -/
theorem c8_server_init_idempotent (prc : Option (List Field))
    (apiMethods : List String) (o : ResolvedModuleConfiguration)
    (release : Option String) (st : SentryProcState)
    (hset : st.sentrySet = false) (hcan : canInitialize o = true) :
    (initializeServerSentry prc apiMethods o release
        (initializeServerSentry prc apiMethods o release st)
      = initializeServerSentry prc apiMethods o release st)
    ∧ (initializeServerSentry prc apiMethods o release st).initCount
        = st.initCount + 1
    ∧ ∀ (prc2 : Option (List Field)) (api2 : List String)
        (o2 : ResolvedModuleConfiguration) (rel2 : Option String),
        initializeServerSentry prc2 api2 o2 rel2
            (initializeServerSentry prc apiMethods o release st)
          = initializeServerSentry prc apiMethods o release st := by
  have hstep : initializeServerSentry prc apiMethods o release st
      = { sentrySet := true, initCount := st.initCount + 1,
          initConfigs := st.initConfigs ++
            [mergeObjs false [("release",
                match release with
                | some r => .str r
                | none => .undefined)]
              (resolveServerOptions prc apiMethods o).config] } := by
    simp [initializeServerSentry, hset, hcan]
  refine ⟨?_, by rw [hstep], ?_⟩
  · rw [hstep]
    simp [initializeServerSentry]
  · intro prc2 api2 o2 rel2
    rw [hstep]
    simp [initializeServerSentry]

/-- C8 witness: a concrete double invocation from a fresh state. -/
theorem c8_witness :
    (initializeServerSentry none [] baseOptions (some "1.0")
        (initializeServerSentry none [] baseOptions (some "1.0")
          { sentrySet := false, initCount := 0, initConfigs := [] })
      = initializeServerSentry none [] baseOptions (some "1.0")
          { sentrySet := false, initCount := 0, initConfigs := [] })
    ∧ (initializeServerSentry none [] baseOptions (some "1.0")
        { sentrySet := false, initCount := 0, initConfigs := [] }).initCount = 0 + 1 :=
  ⟨(c8_server_init_idempotent none [] baseOptions (some "1.0")
      { sentrySet := false, initCount := 0, initConfigs := [] } rfl rfl).1,
   (c8_server_init_idempotent none [] baseOptions (some "1.0")
      { sentrySet := false, initCount := 0, initConfigs := [] } rfl rfl).2.1⟩

/-- C10: the setup-time default of the initialize flag is
`envToBool(process.env.SENTRY_INITIALIZE) || true`, hence `true` for every
value of the environment variable (it alone can never disable
initialization); with no user-supplied `initialize` key the resolved flag
stays true, and an explicit `initialize: false` in the user module options
resolves to false. -/
theorem c10_default_initialize_always_true (env : EnvVars) (dev : Bool) :
    (getKey (defaultsObject env dev) "initialize" = .bool true)
    ∧ (∀ topLevelOptions moduleOptions : List Field,
        findKeyF topLevelOptions "initialize" = none →
        findKeyF moduleOptions "initialize" = none →
        getKey (setupOptions env dev topLevelOptions moduleOptions) "initialize"
          = .bool true)
    ∧ (∀ topLevelOptions moduleOptions : List Field,
        keysDistinct moduleOptions →
        findKeyF topLevelOptions "initialize" = none →
        findKeyF moduleOptions "initialize" = some (.bool false) →
        getKey (setupOptions env dev topLevelOptions moduleOptions) "initialize"
          = .bool false) := by
  have hdefs : findKeyF (defaultsObject env dev) "initialize"
      = some (.bool (envToBool env.sentryInit || true)) := by
    simp [defaultsObject, findKeyF]
  have hdist : keysDistinct (defaultsObject env dev) := by
    rw [keysDistinct]
    simp only [defaultsObject, List.map_cons, List.map_nil]
    decide
  have hbase : getKey (mergeObjs true [] (defaultsObject env dev)) "initialize"
      = .bool true := by
    rw [getKey_mergeObjs true "initialize" _ [] hdist, hdefs]
    simp [mergeKey, mergeWithCustomizer, getKey, findKeyF]
  refine ⟨?_, ?_, ?_⟩
  · rw [getKey, hdefs]
    simp
  · intro topLevelOptions moduleOptions htop hmod
    rw [setupOptions, getKey_mergeObjs_not_bound true _ _ _ hmod,
      getKey_mergeObjs_not_bound true _ _ _ htop, hbase]
  · intro topLevelOptions moduleOptions hdistM htop hmod
    rw [setupOptions, getKey_mergeObjs true _ _ _ hdistM, hmod,
      getKey_mergeObjs_not_bound true _ _ _ htop, hbase]
    simp [mergeKey, mergeWithCustomizer]

/-- C10 witness: with `SENTRY_INITIALIZE=false` in the environment the
default is still true, and a user `initialize: false` resolves to false. -/
theorem c10_witness :
    (getKey (defaultsObject { sentryInit := some "false" } false) "initialize"
      = .bool true)
    ∧ (getKey (setupOptions { sentryInit := some "false" } false [] []) "initialize"
      = .bool true)
    ∧ (getKey (setupOptions { sentryInit := some "0" } false []
          [("initialize", .bool false)]) "initialize"
      = .bool false) :=
  ⟨(c10_default_initialize_always_true { sentryInit := some "false" } false).1,
   (c10_default_initialize_always_true { sentryInit := some "false" } false).2.1
      [] [] rfl rfl,
   (c10_default_initialize_always_true { sentryInit := some "0" } false).2.2
      [] [("initialize", .bool false)] (by decide) rfl rfl⟩

/-- C5 witness: requesting only `foo` when `captureException` is among the
discovered API methods still yields a mock list containing
`captureException`. -/
theorem c5_witness :
    ∃ l, (resolveLazyOptions (.lazyOn { mockApiMethods := some (.listSetting ["foo"]) })
          ["captureException", "captureMessage"]).1
        = some { injectMock := true, injectLoadHook := false,
                 mockApiMethods := .listSetting l, chunkName := "sentry",
                 webpackPrefetch := false, webpackPreload := false }
        ∧ "captureException" ∈ l :=
  c5_captureException_force_included
    { mockApiMethods := some (.listSetting ["foo"]) }
    ["captureException", "captureMessage"] ["foo"] rfl rfl (by decide)

/-- C3 counterexample: the client option resolver merges the shared config
with the clientConfig overlay through a customizer-free lodash merge, so an
array key present on both sides is index-merged (here: replaced), not
concatenated, contradicting the claim for the resolver merges. -/
theorem c3_overlay_merge_counterexample :
    getKey (resolveClientOptions false []
        { baseOptions with
            config := [("allowUrls", .arr [.str "a"])]
            clientConfig := [("allowUrls", .arr [.str "b"])] }).config "allowUrls"
      = .arr [.str "b"]
    ∧ getKey (resolveClientOptions false []
        { baseOptions with
            config := [("allowUrls", .arr [.str "a"])]
            clientConfig := [("allowUrls", .arr [.str "b"])] }).config "allowUrls"
      ≠ .arr [.str "a", .str "b"] := by
  constructor
  · simp [resolveClientOptions, baseOptions, objSpread, mergeObjs, assignKey,
      mergeKey, mergeArr, hasKeyF, findKeyF, getKey, setKeyF, concatElems,
      mergeWithCustomizer]
  · simp [resolveClientOptions, baseOptions, objSpread, mergeObjs, assignKey,
      mergeKey, mergeArr, hasKeyF, findKeyF, getKey, setKeyF, concatElems,
      mergeWithCustomizer]

/-- C3 (amended): the merges that pass `mergeWithCustomizer` — the
release-publishing options merge over its defaults and the setup-time
defaults/topLevelOptions/moduleOptions chain — concatenate arrays bound at
the same key, never replacing them. In the top-level chain the realizable
both-arrays conflict is between `topLevelOptions` and `moduleOptions`
(the defaults object itself binds no array-valued key), and there the two
arrays concatenate in chain order. The option resolvers' overlay merges
use the customizer-free lodash merge instead (see the counterexample). -/
theorem c3_accretive_merge_amended :
    (∀ (userPublishRelease : JValue) (k : String) (xs ys : List JValue),
        keysDistinct (asObjFields userPublishRelease) →
        findKeyF defaultsPublishRelease k = some (.arr xs) →
        findKeyF (asObjFields userPublishRelease) k = some (.arr ys) →
        getKey (resolvePublishReleaseOptions userPublishRelease) k
          = .arr (xs ++ ys))
    ∧ (∀ (env : EnvVars) (dev : Bool) (topLevelOptions moduleOptions : List Field)
        (k : String) (xs ys : List JValue),
        keysDistinct topLevelOptions →
        keysDistinct moduleOptions →
        findKeyF (defaultsObject env dev) k = none →
        findKeyF topLevelOptions k = some (.arr xs) →
        findKeyF moduleOptions k = some (.arr ys) →
        getKey (setupOptions env dev topLevelOptions moduleOptions) k
          = .arr (xs ++ ys)) := by
  constructor
  · intro user k xs ys hdist hdef huser
    rw [resolvePublishReleaseOptions, getKey_mergeObjs true k _ _ hdist, huser]
    rw [getKey, hdef]
    simp [mergeKey_arr_concat, concatElems]
  · intro env dev top mod k xs ys hdistT hdistM hdef htop hmod
    rw [setupOptions, getKey_mergeObjs true k _ _ hdistM, hmod,
      getKey_mergeObjs true k _ _ hdistT, htop,
      getKey_mergeObjs_not_bound true _ _ _ hdef]
    simp [getKey, findKeyF, mergeKey, mergeWithCustomizer,
      mergeKey_arr_concat, concatElems]

/-- C3 witness: a user `ignore` list is appended to, not substituted for,
the default ignore list of the release-publishing options; and in the
top-level chain an array bound by both `topLevelOptions` and
`moduleOptions` at the same key comes out concatenated. -/
theorem c3_witness :
    (getKey (resolvePublishReleaseOptions
        (.obj [("ignore", .arr [.str "custom-dir"])])) "ignore"
      = .arr [.str "node_modules", .str ".nuxt/dist/client/img",
              .str "custom-dir"])
    ∧ (getKey (setupOptions {} false
          [("allowUrls", .arr [.str "a"])] [("allowUrls", .arr [.str "b"])])
        "allowUrls"
      = .arr [.str "a", .str "b"]) :=
  ⟨c3_accretive_merge_amended.1 (.obj [("ignore", .arr [.str "custom-dir"])])
    "ignore" [.str "node_modules", .str ".nuxt/dist/client/img"]
    [.str "custom-dir"] (by decide) rfl rfl,
   c3_accretive_merge_amended.2 {} false
    [("allowUrls", .arr [.str "a"])] [("allowUrls", .arr [.str "b"])]
    "allowUrls" [.str "a"] [.str "b"] (by decide) (by decide) rfl rfl rfl⟩

/-- C7: when release publishing is requested but no release is resolved
(not in the user config, not in the publish options, not proposed
automatically), the webpack hook warns and returns normally with the
configurations untouched — no plugin is registered and nothing is
thrown. -/
theorem c7_no_release_warn_and_skip (nuxt : NuxtOpts)
    (webpackConfigs : List WebpackConfig)
    (options : ResolvedModuleConfiguration) (env : HookEnv)
    (himport : env.webpackPluginAvailable = true)
    (_hpub : truthy options.publishRelease = true)
    (hrel : truthy (resolvedReleaseChain options env) = false) :
    webpackConfigHook nuxt webpackConfigs options env
      = .ok { configs := webpackConfigs, warnedNoRelease := true } :=
  webpackConfigHook_no_release nuxt webpackConfigs options env himport hrel

/-- C7 witness: with no release anywhere the hook reports the warning and
leaves the single build configuration untouched. -/
theorem c7_witness :
    webpackConfigHook exampleNuxt [{ devtool := none, plugins := [] }]
        baseOptions exampleEnv
      = .ok { configs := [{ devtool := none, plugins := [] }],
              warnedNoRelease := true } :=
  c7_no_release_warn_and_skip exampleNuxt [{ devtool := none, plugins := [] }]
    baseOptions exampleEnv rfl (by decide) (by decide)

/-- C6 counterexample: a webpack-hook run in which no release is resolvable
returns before the devtool loop, leaving the sole entry's devtool unset and
its plugin list empty — contradicting the claim that every run sets the
source-map mode of every entry. -/
theorem c6_devtool_skipped_counterexample :
    webpackConfigHook exampleNuxt [{ devtool := none, plugins := [] }]
        baseOptions exampleEnv
      = .ok { configs := [{ devtool := none, plugins := [] }],
              warnedNoRelease := true }
    ∧ (none : Option String) ≠ some baseOptions.sourceMapStyle :=
  ⟨rfl, by decide⟩

/-- C6 (amended): whenever the webpack hook runs with the plugin import
succeeding and a release resolving (and at least one build configuration),
it sets the devtool of every entry to the configured `sourceMapStyle` and
appends the release-publishing plugin instance only to the last entry's
plugin list. -/
theorem c6_webpack_config_mutation_amended (nuxt : NuxtOpts)
    (webpackConfigs : List WebpackConfig)
    (options : ResolvedModuleConfiguration) (env : HookEnv)
    (himport : env.webpackPluginAvailable = true)
    (hrel : truthy (resolvedReleaseChain options env) = true)
    (hne : webpackConfigs ≠ []) :
    ∃ (pluginOpts : JValue) (r : HookResult),
      webpackConfigHook nuxt webpackConfigs options env = .ok r
      ∧ r.warnedNoRelease = false
      ∧ r.configs.map (fun c => c.devtool)
          = webpackConfigs.map (fun _ => some options.sourceMapStyle)
      ∧ r.configs.map (fun c => c.plugins)
          = (webpackConfigs.map (fun c => c.plugins)).dropLast
            ++ [(webpackConfigs.getLast hne).plugins
                ++ [.sentryWebpackPlugin pluginOpts]] := by
  have hmutne : webpackConfigs.map
      (fun c => { c with devtool := some options.sourceMapStyle }) ≠ [] := by
    simp [hne]
  have hlast : (webpackConfigs.map
      (fun c => { c with devtool := some options.sourceMapStyle })).getLast hmutne
      = { webpackConfigs.getLast hne with
          devtool := some options.sourceMapStyle } := by
    have h1 := getLast?_map_local
      (fun c => { c with devtool := some options.sourceMapStyle }) webpackConfigs
    rw [List.getLast?_eq_getLast_of_ne_nil hne,
      List.getLast?_eq_getLast_of_ne_nil hmutne, Option.map_some'] at h1
    exact Option.some.inj h1
  refine ⟨.obj (populateSetCommits env
      (setKeyF (buildIncludeList nuxt options
          (deriveUrlPrefixStep nuxt (asObjFields options.publishRelease)))
        "release" (resolvedReleaseChain options env))),
    { configs := (webpackConfigs.dropLast.map
          (fun c => { c with devtool := some options.sourceMapStyle }))
        ++ [{ devtool := some options.sourceMapStyle,
              plugins := (webpackConfigs.getLast hne).plugins
                ++ [.sentryWebpackPlugin (.obj (populateSetCommits env
                      (setKeyF (buildIncludeList nuxt options
                          (deriveUrlPrefixStep nuxt (asObjFields options.publishRelease)))
                        "release" (resolvedReleaseChain options env))))] }]
      warnedNoRelease := false }, ?_, rfl, ?_, ?_⟩
  · rw [webpackConfigHook_ok nuxt webpackConfigs options env himport hrel,
      appendPluginToLastConfig_of_ne_nil _ _ hmutne, hlast,
      dropLast_map_local]
    rfl
  · rw [List.map_append, List.map_map]
    conv_rhs => rw [← List.dropLast_append_getLast hne, List.map_append]
    rfl
  · rw [List.map_append, List.map_map, dropLast_map_local]
    rfl

/-- C6 witness: with a release set in the user config, both entries get the
configured devtool and only the second entry receives the plugin. -/
theorem c6_witness :
    ∃ (pluginOpts : JValue) (r : HookResult),
      webpackConfigHook exampleNuxt
          [{ devtool := none, plugins := [.otherPlugin "p"] },
           { devtool := some "eval", plugins := [] }]
          { baseOptions with config := [("release", .str "1.2.3")] }
          exampleEnv
        = .ok r
      ∧ r.warnedNoRelease = false
      ∧ r.configs.map (fun c => c.devtool) = [some "source-map", some "source-map"]
      ∧ r.configs.map (fun c => c.plugins)
          = [[.otherPlugin "p"], [.sentryWebpackPlugin pluginOpts]] := by
  obtain ⟨p, r, h1, h2, h3, h4⟩ := c6_webpack_config_mutation_amended exampleNuxt
    [{ devtool := none, plugins := [.otherPlugin "p"] },
     { devtool := some "eval", plugins := [] }]
    { baseOptions with config := [("release", .str "1.2.3")] }
    exampleEnv rfl (by decide) (by decide)
  exact ⟨p, r, h1, h2, h3, h4⟩

theorem getKey_setKeyF_self (k : String) (v : JValue) :
    ∀ fs : List Field, getKey (setKeyF fs k v) k = v := by
  intro fs
  induction fs with
  | nil => simp [setKeyF, getKey, findKeyF]
  | cons p fs ih =>
    obtain ⟨k0, v0⟩ := p
    by_cases h : k0 = k
    · subst h
      simp [setKeyF, getKey, findKeyF]
    · simp only [setKeyF, if_neg h, getKey, findKeyF]
      exact ih

theorem getKey_resolveTracingOptions_ne (tr : TracingSetting)
    (config : List Field) (k : String) (h : k ≠ "tracesSampleRate") :
    getKey (resolveTracingOptions tr config).1 k = getKey config k := by
  cases tr with
  | tracingOff => rfl
  | tracingOn tf =>
    simp only [resolveTracingOptions]
    split
    · rfl
    · exact getKey_setKeyF_ne "tracesSampleRate" _ k h config

theorem getKey_resolveTracingOptions_truthy (tr : TracingSetting)
    (config : List Field) (k : String)
    (h : truthy (getKey config k) = true) :
    getKey (resolveTracingOptions tr config).1 k = getKey config k := by
  by_cases hk : k = "tracesSampleRate"
  · subst hk
    cases tr with
    | tracingOff => rfl
    | tracingOn tf =>
      simp only [resolveTracingOptions]
      rw [if_pos h]
  · exact getKey_resolveTracingOptions_ne tr config k hk

theorem serverConfigCore_intergrations (o : ResolvedModuleConfiguration)
    (hdist : keysDistinct o.serverIntegrations)
    (h2 : findKeyF o.config "intergrations" = none)
    (h3 : findKeyF o.serverConfig "intergrations" = none) :
    getKey (resolveServerConfigCore none o) "intergrations"
      = .arr ((o.serverIntegrations.filter
          (fun p => serverIntegrationAllowed p.1 && truthy p.2)).map
          (fun p => if objectKeysLength p.2 != 0 then JValue.inst p.1 p.2
                    else JValue.inst p.1 .undefined)) := by
  simp only [resolveServerConfigCore, validateIntegrations, filterDisabledIntegration]
  rw [getKey_mergeObjs_not_bound false _ _ _ h3,
    getKey_mergeObjs_not_bound false _ _ _ h2]
  rw [getKey]
  simp only [findKeyF, if_neg (by decide : ¬ ("dsn" = "intergrations")),
    if_pos rfl, Option.getD_some]
  rw [keys_filter_map_getKey truthy
    (fun name v => if objectKeysLength v != 0 then JValue.inst name v
                   else JValue.inst name .undefined)
    (o.serverIntegrations.filter (fun p => serverIntegrationAllowed p.1))
    (keysDistinct_filter _ _ hdist)]
  rw [List.filter_filter]
  simp [Bool.and_comm]

theorem serverConfigCore_overlay (o : ResolvedModuleConfiguration)
    (k : String) (v : JValue) (hdist : keysDistinct o.serverConfig)
    (hfind : findKeyF o.serverConfig k = some v) (hprim : isPrim v = true) :
    getKey (resolveServerConfigCore none o) k = v := by
  simp only [resolveServerConfigCore]
  rw [getKey_mergeObjs false k _ _ hdist, hfind]
  exact mergeKey_prim _ _ hprim

theorem serverConfigCore_shared (o : ResolvedModuleConfiguration)
    (k : String) (v : JValue) (hdist : keysDistinct o.config)
    (hfind : findKeyF o.config k = some v) (hprim : isPrim v = true)
    (hns : findKeyF o.serverConfig k = none) :
    getKey (resolveServerConfigCore none o) k = v := by
  simp only [resolveServerConfigCore]
  rw [getKey_mergeObjs_not_bound false _ _ _ hns,
    getKey_mergeObjs false k _ _ hdist, hfind]
  exact mergeKey_prim _ _ hprim

theorem serverConfigCore_runtime (o : ResolvedModuleConfiguration)
    (prcF : List Field) (k : String) (v : JValue)
    (hkey : o.runtimeConfigKey ≠ "")
    (hhas : hasKeyF prcF o.runtimeConfigKey = true)
    (hdist : keysDistinct (asObjFields
      (getKeyV (getKey prcF o.runtimeConfigKey) "serverConfig")))
    (hfind : findKeyF (asObjFields
      (getKeyV (getKey prcF o.runtimeConfigKey) "serverConfig")) k = some v)
    (hprim : isPrim v = true) :
    getKey (resolveServerConfigCore (some prcF) o) k = v := by
  simp only [resolveServerConfigCore]
  rw [if_pos (by simp [truthy, hhas, hkey])]
  rw [getKey_mergeObjs false k _ _ hdist, hfind]
  exact mergeKey_prim _ _ hprim

/-- C9 counterexample: with tracing enabled and the server overlay setting
`tracesSampleRate` to the falsy `0`, the resolver's returned config carries
the tracing default `1`, not the overlay value — the server overlay (and
likewise the runtime config) is not the highest-priority override at this
key, because `resolveTracingOptions` runs after the runtime-config merge
and overwrites a falsy merged sample rate. -/
theorem c9_tracing_overwrite_counterexample :
    getKey (resolveServerOptions none []
        { baseOptions with
            tracing := .tracingOn []
            serverConfig := [("tracesSampleRate", .num 0)] }).config
        "tracesSampleRate"
      = .num 1
    ∧ getKey (resolveServerOptions none []
        { baseOptions with
            tracing := .tracingOn []
            serverConfig := [("tracesSampleRate", .num 0)] }).config
        "tracesSampleRate"
      ≠ .num 0 := by
  constructor
  · simp [resolveServerOptions, resolveServerConfigCore, baseOptions,
      validateIntegrations, filterDisabledIntegration, mergeObjs, assignKey,
      mergeKey, hasKeyF, findKeyF, getKey, setKeyF, resolveTracingOptions,
      defaultTracingOptions, truthy, resolveLazyOptions]
  · simp [resolveServerOptions, resolveServerConfigCore, baseOptions,
      validateIntegrations, filterDisabledIntegration, mergeObjs, assignKey,
      mergeKey, hasKeyF, findKeyF, getKey, setKeyF, resolveTracingOptions,
      defaultTracingOptions, truthy, resolveLazyOptions]

/-- C9 (amended): the server option resolver builds one instantiated
integration per validated truthy toggle — constructed with the toggle's
options when they have keys, otherwise with no arguments — and returns them
inside the resolved config (under the source's `intergrations` key, next to
the DSN default). Primitive keys of the server overlay override the shared
config, primitive keys of the shared config survive when not overridden,
and a runtime-config `serverConfig` entry is the highest-priority override
— each except at the `tracesSampleRate` key when tracing is enabled and
the merged value is falsy: there `resolveTracingOptions`, running after the
runtime-config merge, overwrites the merged value with the resolved tracing
sample rate (final conjunct). -/
theorem c9_server_options_resolution :
    (∀ (apiMethods : List String) (o : ResolvedModuleConfiguration),
        keysDistinct o.serverIntegrations →
        findKeyF o.config "intergrations" = none →
        findKeyF o.serverConfig "intergrations" = none →
        getKey (resolveServerOptions none apiMethods o).config "intergrations"
          = .arr ((o.serverIntegrations.filter
              (fun p => serverIntegrationAllowed p.1 && truthy p.2)).map
              (fun p => if objectKeysLength p.2 != 0 then JValue.inst p.1 p.2
                        else JValue.inst p.1 .undefined)))
    ∧ (∀ (apiMethods : List String) (o : ResolvedModuleConfiguration)
        (k : String) (v : JValue),
        keysDistinct o.serverConfig →
        findKeyF o.serverConfig k = some v → isPrim v = true →
        (k ≠ "tracesSampleRate" ∨ truthy v = true ∨ o.tracing = .tracingOff) →
        getKey (resolveServerOptions none apiMethods o).config k = v)
    ∧ (∀ (apiMethods : List String) (o : ResolvedModuleConfiguration)
        (k : String) (v : JValue),
        keysDistinct o.config →
        findKeyF o.config k = some v → isPrim v = true →
        findKeyF o.serverConfig k = none →
        (k ≠ "tracesSampleRate" ∨ truthy v = true ∨ o.tracing = .tracingOff) →
        getKey (resolveServerOptions none apiMethods o).config k = v)
    ∧ (∀ (apiMethods : List String) (o : ResolvedModuleConfiguration)
        (prcF : List Field) (k : String) (v : JValue),
        o.runtimeConfigKey ≠ "" →
        hasKeyF prcF o.runtimeConfigKey = true →
        keysDistinct (asObjFields
          (getKeyV (getKey prcF o.runtimeConfigKey) "serverConfig")) →
        findKeyF (asObjFields
          (getKeyV (getKey prcF o.runtimeConfigKey) "serverConfig")) k = some v →
        isPrim v = true →
        (k ≠ "tracesSampleRate" ∨ truthy v = true ∨ o.tracing = .tracingOff) →
        getKey (resolveServerOptions (some prcF) apiMethods o).config k = v)
    ∧ (∀ (apiMethods : List String) (o : ResolvedModuleConfiguration)
        (tf : List Field) (v : JValue),
        o.tracing = .tracingOn tf →
        keysDistinct o.serverConfig →
        findKeyF o.serverConfig "tracesSampleRate" = some v →
        isPrim v = true → truthy v = false →
        getKey (resolveServerOptions none apiMethods o).config "tracesSampleRate"
          = getKey (mergeObjs false defaultTracingOptions tf)
              "tracesSampleRate") := by
  refine ⟨?_, ?_, ?_, ?_, ?_⟩
  · intro apiMethods o hdist h2 h3
    simp only [resolveServerOptions]
    rw [getKey_resolveTracingOptions_ne _ _ _ (by decide)]
    exact serverConfigCore_intergrations o hdist h2 h3
  · intro apiMethods o k v hdist hfind hprim htr
    have hmain : getKey (resolveServerConfigCore none o) k = v :=
      serverConfigCore_overlay o k v hdist hfind hprim
    simp only [resolveServerOptions]
    rcases htr with h | h | h
    · rw [getKey_resolveTracingOptions_ne _ _ _ h]
      exact hmain
    · rw [getKey_resolveTracingOptions_truthy _ _ _ (by rw [hmain]; exact h)]
      exact hmain
    · rw [h]
      exact hmain
  · intro apiMethods o k v hdist hfind hprim hns htr
    have hmain : getKey (resolveServerConfigCore none o) k = v :=
      serverConfigCore_shared o k v hdist hfind hprim hns
    simp only [resolveServerOptions]
    rcases htr with h | h | h
    · rw [getKey_resolveTracingOptions_ne _ _ _ h]
      exact hmain
    · rw [getKey_resolveTracingOptions_truthy _ _ _ (by rw [hmain]; exact h)]
      exact hmain
    · rw [h]
      exact hmain
  · intro apiMethods o prcF k v hkey hhas hdist hfind hprim htr
    have hmain : getKey (resolveServerConfigCore (some prcF) o) k = v :=
      serverConfigCore_runtime o prcF k v hkey hhas hdist hfind hprim
    simp only [resolveServerOptions]
    rcases htr with h | h | h
    · rw [getKey_resolveTracingOptions_ne _ _ _ h]
      exact hmain
    · rw [getKey_resolveTracingOptions_truthy _ _ _ (by rw [hmain]; exact h)]
      exact hmain
    · rw [h]
      exact hmain
  · intro apiMethods o tf v htrOn hdist hfind hprim hfalsy
    have hmain : getKey (resolveServerConfigCore none o) "tracesSampleRate" = v :=
      serverConfigCore_overlay o _ v hdist hfind hprim
    simp only [resolveServerOptions, htrOn, resolveTracingOptions]
    rw [if_neg (by rw [hmain, hfalsy]; exact Bool.false_ne_true)]
    rw [getKey_setKeyF_self]

/-- C9 witness: a toggle map with a disallowed key, a disabled toggle, a
keyless toggle, and a toggle with options resolves to the two expected
instances; a runtime-config `serverConfig` entry wins at an ordinary key;
and with tracing on, a falsy overlay sample rate is overwritten with the
resolved tracing default. -/
theorem c9_witness :
    (getKey (resolveServerOptions none []
        { baseOptions with
            serverIntegrations :=
              [("Dedupe", .obj []), ("Foo", .obj []),
               ("Debug", .obj [("stringify", .bool true)]),
               ("Modules", .bool false)] }).config "intergrations"
      = .arr [.inst "Dedupe" .undefined,
              .inst "Debug" (.obj [("stringify", .bool true)])])
    ∧ (getKey (resolveServerOptions
          (some [("sentry", .obj [("serverConfig",
              .obj [("environment", .str "runtime")])])]) []
          { baseOptions with
              config := [("environment", .str "shared")]
              serverConfig := [("environment", .str "overlay")] }).config
          "environment"
      = .str "runtime")
    ∧ (getKey (resolveServerOptions none []
          { baseOptions with
              tracing := .tracingOn []
              serverConfig := [("tracesSampleRate", .num 0)] }).config
          "tracesSampleRate"
      = getKey (mergeObjs false defaultTracingOptions []) "tracesSampleRate") :=
  ⟨(c9_server_options_resolution.1 []
      { baseOptions with
          serverIntegrations :=
            [("Dedupe", .obj []), ("Foo", .obj []),
             ("Debug", .obj [("stringify", .bool true)]),
             ("Modules", .bool false)] }
      (by decide) rfl rfl).trans (by simp [serverIntegrationAllowed,
        SERVER_INTEGRATIONS, truthy, objectKeysLength]),
   c9_server_options_resolution.2.2.2.1 []
      { baseOptions with
          config := [("environment", .str "shared")]
          serverConfig := [("environment", .str "overlay")] }
      [("sentry", .obj [("serverConfig", .obj [("environment", .str "runtime")])])]
      "environment" (.str "runtime") (by decide) (by decide) (by decide) rfl rfl
      (Or.inl (by decide)),
   c9_server_options_resolution.2.2.2.2 []
      { baseOptions with
          tracing := .tracingOn []
          serverConfig := [("tracesSampleRate", .num 0)] }
      [] (.num 0) rfl (by decide) rfl rfl rfl⟩

end SentryModule
